import Mathlib

/-!
Verification of profile / configuration management code of the `ai-toolbox`
repository (Rust sources under `src/tauri/src/coding/`).

The embedding is shallow: each Rust function relevant to the claims is
translated into an executable Lean definition.  External collaborators
(the SurrealDB document store, the `toml` / `serde_json` parsers, the file
system) are treated as opaque: their outcomes appear as explicit
parameters (`Except`-valued oracles), exactly where the Rust code consumes
their results.
-/

/-! ## JSON values (`serde_json::Value`)

A shallow model of `serde_json::Value`.  Objects are ordered association
lists; `serde_json`'s `Map` cannot hold duplicate keys, which is captured
by the well-formedness predicate `wfJ` below.  Numbers are modelled as
integers: none of the functions under study inspects numeric values. -/

inductive J where
  | null : J
  | bool : Bool → J
  | num : Int → J
  | str : String → J
  | arr : List J → J
  | obj : List (String × J) → J

def J.isNull : J → Bool
  | J.null => true
  | _ => false

def J.isObj : J → Bool
  | J.obj _ => true
  | _ => false

/-- Rust `Value::as_str` -/
def J.asStr : J → Option String
  | J.str s => some s
  | _ => none

/-- Rust `value.get(key)`: first binding of `key` in an object, else `None`. -/
def jGet (v : J) (k : String) : Option J :=
  match v with
  | J.obj fields => (fields.find? (fun kv => kv.1 = k)).map Prod.snd
  | _ => none

/-- Is a value an empty JSON object?  (`v.is_object() && v.as_object().unwrap().is_empty()`) -/
def isEmptyObj : J → Bool
  | J.obj [] => true
  | _ => false

/-! ### `deep_merge_json` (src/tauri/src/coding/oh_my_opencode/adapter.rs, lines 38–52)

```rust
pub fn deep_merge_json(base: &mut Value, overlay: &Value) {
    if let (Some(base_obj), Some(overlay_obj)) = (base.as_object_mut(), overlay.as_object()) {
        for (key, value) in overlay_obj {
            if let Some(base_value) = base_obj.get_mut(key) {
                if base_value.is_object() && value.is_object() {
                    deep_merge_json(base_value, value);
                } else {
                    *base_value = value.clone();
                }
            } else {
                base_obj.insert(key.clone(), value.clone());
            }
        }
    }
}
```

The in-place mutation is rendered functionally: the result is the final
value of `base`.  Inserting an absent key is modelled as appending the
binding; no claim observes the position of inserted keys. -/

mutual

def deep_merge_json : J → J → J
  | b, J.obj ov =>
    match b with
    | J.obj bf => J.obj (deep_merge_fields bf ov)
    | b => b
  | b, _ => b

def deep_merge_fields (bf : List (String × J)) : List (String × J) → List (String × J)
  | [] => bf
  | (k, v) :: rest => deep_merge_fields (deep_merge_entry bf k v) rest

def deep_merge_entry (bf : List (String × J)) (k : String) (v : J) : List (String × J) :=
  match bf with
  | [] => [(k, v)]
  | (k₀, bv) :: bfrest =>
    if k₀ = k then
      (k₀, match bv, v with
           | J.obj a, J.obj ob => J.obj (deep_merge_fields a ob)
           | _, v => v) :: bfrest
    else (k₀, bv) :: deep_merge_entry bfrest k v

end

/-! ### `clean_empty_values` (adapter.rs, lines 56–67)

```rust
pub fn clean_empty_values(value: &mut Value) {
    match value {
        Value::Object(map) => {
            map.retain(|_key, v| {
                clean_empty_values(v);
                !(v.is_object() && v.as_object().unwrap().is_empty()) && !v.is_null()
            });
        }
        _ => {}
    }
}
```

`retain` first cleans each entry's value, then keeps the entry unless the
cleaned value is an empty object or null.  Arrays are untouched. -/

mutual

def clean_empty_values : J → J
  | J.obj fields => J.obj (clean_fields fields)
  | v => v

def clean_fields : List (String × J) → List (String × J)
  | [] => []
  | (k, v) :: rest =>
    let v₀ := clean_empty_values v
    if isEmptyObj v₀ || v₀.isNull then clean_fields rest
    else (k, v₀) :: clean_fields rest

end

/-! ### Well-formed JSON: object keys are duplicate-free at every level.
`serde_json::Map` is a map, so every value the Rust code manipulates
satisfies this. -/

/-- Does the field list bind key `k`? -/
def containsKey (fields : List (String × J)) (k : String) : Bool :=
  fields.any (fun kv => kv.1 = k)

mutual

def wfJ : J → Bool
  | J.obj fields => wfFields fields
  | J.arr xs => wfArr xs
  | _ => true

def wfFields : List (String × J) → Bool
  | [] => true
  | (k, v) :: rest => !containsKey rest k && wfJ v && wfFields rest

def wfArr : List J → Bool
  | [] => true
  | v :: rest => wfJ v && wfArr rest

end

/-! ## TOML layered merge (src/tauri/src/coding/codex/commands.rs, lines 401–421)

```rust
fn merge_toml_configs(common: &str, provider: &str) -> Result<String, String> {
    if common.trim().is_empty() { return Ok(provider.to_string()); }
    if provider.trim().is_empty() { return Ok(common.to_string()); }
    let common_table: toml::Table = toml::from_str(common)
        .map_err(|e| format!("Failed to parse common TOML: {}", e))?;
    let provider_table: toml::Table = toml::from_str(provider)
        .map_err(|e| format!("Failed to parse provider TOML: {}", e))?;
    let mut merged = common_table;
    for (key, value) in provider_table {
        merged.insert(key, value);
    }
    toml::to_string_pretty(&merged).map_err(...)
}
```

The external `toml` crate is opaque: parsing is an explicit oracle
`tparse`, serialization an abstract total rendering `tpretty`
(`to_string_pretty` of a key→value table does not fail).  A `toml::Table`
is a map from top-level keys to values; it is modelled as an association
list whose `table_insert` replaces an existing binding. -/

/-- Rust `s.trim().is_empty()`: every character of `s` is whitespace. -/
def isBlank (s : String) : Bool := s.data.all (fun c => c.isWhitespace)

def emapErr {ε ε' α : Type} (f : ε → ε') : Except ε α → Except ε' α
  | Except.ok a => Except.ok a
  | Except.error e => Except.error (f e)

/-- Rust `toml::map::Map::insert`: replace the binding of `k` if present, else add it. -/
def table_insert {α : Type} (m : List (String × α)) (k : String) (v : α) : List (String × α) :=
  match m with
  | [] => [(k, v)]
  | (k₀, v₀) :: rest => if k₀ = k then (k, v) :: rest else (k₀, v₀) :: table_insert rest k v

/-- The `for (key, value) in provider_table { merged.insert(key, value) }` loop. -/
def merge_tables {α : Type} (common provider : List (String × α)) : List (String × α) :=
  provider.foldl (fun acc kv => table_insert acc kv.1 kv.2) common

/-- Lookup of a top-level key in a table. -/
def lookupT {α : Type} (m : List (String × α)) (k : String) : Option α :=
  (m.find? (fun kv => kv.1 = k)).map Prod.snd

def merge_toml_configs {α : Type}
    (tparse : String → Except String (List (String × α)))
    (tpretty : List (String × α) → String)
    (common provider : String) : Except String String :=
  if isBlank common then Except.ok provider
  else if isBlank provider then Except.ok common
  else
    match emapErr (fun e => "Failed to parse common TOML: " ++ e) (tparse common) with
    | Except.error e => Except.error e
    | Except.ok common_table =>
      match emapErr (fun e => "Failed to parse provider TOML: " ++ e) (tparse provider) with
      | Except.error e => Except.error e
      | Except.ok provider_table =>
        Except.ok (tpretty (merge_tables common_table provider_table))

/-! ## Path model (src/tauri/src/coding/skills/central_repo.rs)

The resolving machine is non-Windows (the spec's own scenario says "on a
non-Windows machine"), so `Path` components are arbitrary byte strings
split on `'/'`, and `PathBuf::is_absolute` means a leading `'/'`.
Strings are modelled as `List Char`; an absolute Unix path is its list of
components (each nonempty, no `'/'`, never `"."` — `Path::components`
normalizes `"."` away). -/

abbrev PStr := List Char

abbrev UPath := List PStr

def splitOnSlashAux : List Char → List Char → List (List Char)
  | [], acc => [acc.reverse]
  | c :: rest, acc =>
    if c = '/' then acc.reverse :: splitOnSlashAux rest []
    else splitOnSlashAux rest (c :: acc)

def splitOnSlash (s : PStr) : List PStr := splitOnSlashAux s []

/-- Keep a parsed component: `Path::components` drops empty components and `"."`. -/
def keepComp (c : PStr) : Bool := !(c == []) && !(c == ['.'])

/-- Components of a path string (`PathBuf::from(s)`, viewed through `components()`). -/
def parse_components (s : PStr) : UPath := (splitOnSlash s).filter keepComp

def intercalateSlash : List PStr → PStr
  | [] => []
  | [c] => c
  | c :: rest => c ++ '/' :: intercalateSlash rest

/-- Rust `str::replace('\\', "/")` (single-character pattern and replacement). -/
def replaceBackslashes (s : PStr) : PStr :=
  s.map (fun c => if c = '\\' then '/' else c)

/-- Rust `Path::strip_prefix`: succeeds iff the first argument is a component prefix. -/
def strip_prefix_comps : UPath → UPath → Option UPath
  | [], p => some p
  | _, [] => none
  | c :: cs, p :: ps => if p = c then strip_prefix_comps cs ps else none

/-- Rust `Path::file_name`: the last component, `None` when the path has no
components or ends in `".."`. -/
def file_name_comp (p : UPath) : Option PStr :=
  match p.getLast? with
  | some n => if n = ['.', '.'] then none else some n
  | none => none

/-- Rust `to_string_lossy` of an absolute Unix path. -/
def render_absolute (p : UPath) : PStr := '/' :: intercalateSlash p

/-! ### `to_relative_central_path` (central_repo.rs, lines 49–59)

```rust
pub fn to_relative_central_path(absolute_path: &Path, central_dir: &Path) -> String {
    if let Ok(rel) = absolute_path.strip_prefix(central_dir) {
        return rel.to_string_lossy().replace('\\', "/");
    }
    absolute_path
        .file_name()
        .map(|n| n.to_string_lossy().to_string())
        .unwrap_or_else(|| absolute_path.to_string_lossy().replace('\\', "/"))
}
``` -/

def to_relative_central_path (absolute_path central_dir : UPath) : PStr :=
  match strip_prefix_comps central_dir absolute_path with
  | some rel => replaceBackslashes (intercalateSlash rel)
  | none =>
    match file_name_comp absolute_path with
    | some n => n
    | none => replaceBackslashes (render_absolute absolute_path)

/-- Rust `PathBuf::from(s).is_absolute()` on a non-Windows machine: the string
starts with a slash.  (The same head test implements the
`starts_with` branch inside `is_any_platform_absolute`.) -/
def is_unix_absolute (s : PStr) : Bool :=
  match s with
  | c :: _ => c == '/'
  | [] => false

/-! ### `is_any_platform_absolute` (central_repo.rs, lines 63–78) -/

def is_any_platform_absolute (path : PStr) : Bool :=
  if is_unix_absolute path then true
  else
    match path with
    | c0 :: c1 :: c2 :: _ => c0.isAlpha && (c1 == ':') && (c2 == '\\' || c2 == '/')
    | _ => false

def splitOnSepsAux : List Char → List Char → List (List Char)
  | [], acc => [acc.reverse]
  | c :: rest, acc =>
    if c = '/' ∨ c = '\\' then acc.reverse :: splitOnSepsAux rest []
    else splitOnSepsAux rest (c :: acc)

/-- Rust `stored_path.rsplit(|c| c == '/' || c == '\\').find(|s| !s.is_empty()).unwrap_or(stored_path)` -/
def last_nonempty_segment (s : PStr) : PStr :=
  match (splitOnSepsAux s []).reverse.find? (fun seg => !(seg == [])) with
  | some seg => seg
  | none => s


/-- Rust `PathBuf::join`: an absolute right argument replaces the whole path. -/
def join_path (base : UPath) (s : PStr) : UPath :=
  if is_unix_absolute s then parse_components s else base ++ parse_components s

/-! ### `resolve_skill_central_path` (central_repo.rs, lines 82–102)

```rust
pub fn resolve_skill_central_path(stored_path: &str, current_central_dir: &Path) -> PathBuf {
    let stored = PathBuf::from(stored_path);
    if stored.is_absolute() && stored.exists() { return stored; }
    if is_any_platform_absolute(stored_path) {
        let name = stored_path
            .rsplit(|c| c == '/' || c == '\\')
            .find(|s| !s.is_empty())
            .unwrap_or(stored_path);
        return current_central_dir.join(name);
    }
    current_central_dir.join(&stored)
}
```

`exists()` consults the file system, an opaque collaborator: it is the
oracle `fs_exists`. -/

def resolve_skill_central_path (fs_exists : UPath → Bool)
    (stored_path : PStr) (current_central_dir : UPath) : UPath :=
  if is_unix_absolute stored_path && fs_exists (parse_components stored_path) then
    parse_components stored_path
  else if is_any_platform_absolute stored_path then
    join_path current_central_dir (last_nonempty_segment stored_path)
  else
    join_path current_central_dir stored_path

/-! ## Codex provider records (src/tauri/src/coding/codex)

Field structure exactly as constructed in `commands.rs` (the struct
declarations live in `types.rs`, whose field set is fully determined by
the record literals in `commands.rs`). -/

structure CodexProviderContent where
  provider_id : String
  name : String
  category : String
  settings_config : String
  source_provider_id : Option String
  website_url : Option String
  notes : Option String
  icon : Option String
  icon_color : Option String
  sort_index : Option Int
  is_applied : Bool
  created_at : String
  updated_at : String
deriving DecidableEq

structure CodexProvider where
  id : String
  name : String
  category : String
  settings_config : String
  source_provider_id : Option String
  website_url : Option String
  notes : Option String
  icon : Option String
  icon_color : Option String
  sort_index : Option Int
  is_applied : Bool
  created_at : String
  updated_at : String
deriving DecidableEq

structure CodexProviderInput where
  id : String
  name : String
  category : String
  settings_config : String
  source_provider_id : Option String
  website_url : Option String
  notes : Option String
  icon : Option String
  icon_color : Option String
  sort_index : Option Int
deriving DecidableEq

/-- The `codex_provider` table.  Records are keyed by record id
`codex_provider:\x7bid\x7d`; every write in `commands.rs` uses the
`provider_id` field as the record id, so the table is keyed by
`provider_id`. -/
abbrev ProviderTable := List CodexProviderContent

/-- Modelled from the spec: `from_db_value_provider` lives in the codex
adapter module, which is not under src/.  Spec §4.3: decoding probes the
current key name first, then a legacy alternate, so on records written by
this program itself it recovers every field unchanged — the identity up
to renaming `provider_id` to `id`. -/
def from_db_value_provider (r : CodexProviderContent) : CodexProvider :=
  { id := r.provider_id
    name := r.name
    category := r.category
    settings_config := r.settings_config
    source_provider_id := r.source_provider_id
    website_url := r.website_url
    notes := r.notes
    icon := r.icon
    icon_color := r.icon_color
    sort_index := r.sort_index
    is_applied := r.is_applied
    created_at := r.created_at
    updated_at := r.updated_at }

/-- Rust `SELECT * OMIT id FROM codex_provider WHERE provider_id = $id LIMIT 1`
followed by `.first()`. -/
def findProvider (db : ProviderTable) (pid : String) : Option CodexProviderContent :=
  db.find? (fun r => r.provider_id == pid)

/-- Rust `CREATE codex_provider:\x7bid\x7d CONTENT $data`: the document store
rejects a record id that is already present (`map_err` prefix
"Failed to create provider"). -/
def store_create (db : ProviderTable) (c : CodexProviderContent) : Except String ProviderTable :=
  if db.any (fun r => r.provider_id == c.provider_id) then
    Except.error "Failed to create provider: record already exists"
  else Except.ok (db ++ [c])

/-! ### `list_codex_providers` (commands.rs, lines 86–111)

The query's two failure layers appear separately: `query_fail` is the
`db.query(...).await.map_err(...)?` step, `records_result` the
`take(0)` deserialization outcome. -/

def sort_key (p : CodexProvider) : Int := p.sort_index.getD 0

def list_codex_providers (query_fail : Option String)
    (records_result : Except String ProviderTable) : Except String (List CodexProvider) :=
  match query_fail with
  | some e => Except.error ("Failed to query providers: " ++ e)
  | none =>
    match records_result with
    | Except.ok records =>
      Except.ok (List.mergeSort (records.map from_db_value_provider)
        (fun a b => decide (sort_key a ≤ sort_key b)))
    | Except.error _ => Except.ok []

/-! ### `create_codex_provider` (commands.rs, lines 114–179) -/

def dup_id_error (id : String) : String :=
  "Codex provider with ID '" ++ id ++ "' already exists"

/-- The `CodexProviderContent` record literal built in `create_codex_provider`:
`is_applied: false, created_at: now.clone(), updated_at: now`. -/
def content_of_input (input : CodexProviderInput) (now : String) : CodexProviderContent :=
  { provider_id := input.id
    name := input.name
    category := input.category
    settings_config := input.settings_config
    source_provider_id := input.source_provider_id
    website_url := input.website_url
    notes := input.notes
    icon := input.icon
    icon_color := input.icon_color
    sort_index := input.sort_index
    is_applied := false
    created_at := now
    updated_at := now }

/-- The tail of `create_codex_provider` after the duplicate probe. -/
def create_unchecked (db : ProviderTable) (input : CodexProviderInput) (now : String) :
    Except String CodexProvider × ProviderTable :=
  let content := content_of_input input now
  match store_create db content with
  | Except.error e => (Except.error e, db)
  | Except.ok db₂ => (Except.ok (from_db_value_provider content), db₂)

/-- Rust `check_result` is the existence probe's outcome
(`Result<Vec<Value>, _> = ...take(0)`); the code reads it through
`if let Ok(records) = check_result`, so a deserialization error falls
through to the creation step. -/
def create_codex_provider (check_result : Except String ProviderTable)
    (db : ProviderTable) (input : CodexProviderInput) (now : String) :
    Except String CodexProvider × ProviderTable :=
  match check_result with
  | Except.ok records =>
    if !records.isEmpty then (Except.error (dup_id_error input.id), db)
    else create_unchecked db input now
  | Except.error _ => create_unchecked db input now

/-! ### `update_codex_provider` (commands.rs, lines 182–260) -/

/-- The `CodexProviderContent` record literal built in `update_codex_provider`:
`is_applied` is taken from the input, `created_at` as computed, `updated_at = now`. -/
def update_content (p : CodexProvider) (created_at now : String) : CodexProviderContent :=
  { provider_id := p.id
    name := p.name
    category := p.category
    settings_config := p.settings_config
    source_provider_id := p.source_provider_id
    website_url := p.website_url
    notes := p.notes
    icon := p.icon
    icon_color := p.icon_color
    sort_index := p.sort_index
    is_applied := p.is_applied
    created_at := created_at
    updated_at := now }

/-- Delete-then-recreate update.  The store itself is honest here
(`existing_result` is `Ok` of the actual probe; its `Err` branch is a
store failure, also answered "Provider not found" by the code).  On
records written by this program `record.get("created_at")` is always a
string, so the `unwrap_or(&now)` fallback reads the stored field.  The
re-apply side effect on an applied record (`apply_config_to_file`) writes
files only and never touches the table; its failure is logged, not
propagated. -/
def update_codex_provider (db : ProviderTable) (p : CodexProvider) (now : String) :
    Except String CodexProvider × ProviderTable :=
  match (if !p.created_at.isEmpty then some p.created_at
         else match findProvider db p.id with
              | some record => some record.created_at
              | none => none) with
  | none => (Except.error "Provider not found", db)
  | some created_at =>
    let content := update_content p created_at now
    let db₁ := db.filter (fun r => !(r.provider_id == p.id))
    match store_create db₁ content with
    | Except.error e => (Except.error e, db₁)
    | Except.ok db₂ => (Except.ok (from_db_value_provider content), db₂)

/-! ### `select_codex_provider` (commands.rs, lines 302–325) and the
flag flip shared with `apply_config_internal` (lines 472–481):
`UPDATE codex_provider SET is_applied = false, updated_at = $now` then
`UPDATE ... SET is_applied = true, updated_at = $now WHERE provider_id = $id`. -/

def flip_applied (db : ProviderTable) (id now : String) : ProviderTable :=
  (db.map (fun r => { r with is_applied := false, updated_at := now })).map
    (fun r => if r.provider_id == id then { r with is_applied := true, updated_at := now } else r)

def select_codex_provider (db : ProviderTable) (id now : String) :
    Except String Unit × ProviderTable :=
  (Except.ok (), flip_applied db id now)

/-! ## Apply engine (commands.rs, lines 332–487)

System state: the `codex_provider` table, the `config` field of the
`codex_common_config:common` record (absence, and a store failure on its
fetch, both read as `None` in lines 374–379), and the destination files
once written.  The file system is opaque: `write_fail = some e` means
`write_codex_config_files` (directory creation or either file write,
lines 424–446) fails with error `e`; on failure the flag transition is
the only table mutation that could follow, so the table is the observable
state. -/

structure CodexSys where
  providers : ProviderTable
  common_config : Option String
  files : Option (J × String)

/-- The `if let Some(common) = common_toml { if !common.trim().is_empty()
{ config_toml = merge_toml_configs(&common, &config_toml)?; } }` step
(lines 390–394). -/
def layer_merged {α : Type}
    (tparse : String → Except String (List (String × α)))
    (tpretty : List (String × α) → String)
    (common_toml : Option String) (config : String) : Except String String :=
  match common_toml with
  | some common =>
    if !(isBlank common) then merge_toml_configs tparse tpretty common config
    else Except.ok config
  | none => Except.ok config

/-- Rust `apply_config_to_file` (lines 332–398): look up the provider, parse
its `settings_config` JSON, extract the auth blob and config text, merge
the common layer under it, write both files.  Returns the written
contents; any failure is returned before the caller's flag flip. -/
def apply_config_to_file {α : Type}
    (jparse : String → Except String J)
    (tparse : String → Except String (List (String × α)))
    (tpretty : List (String × α) → String)
    (write_fail : Option String)
    (sys : CodexSys) (provider_id : String) : Except String (J × String) :=
  match findProvider sys.providers provider_id with
  | none => Except.error "Provider not found"
  | some record =>
    let provider := from_db_value_provider record
    match emapErr (fun e => "Failed to parse provider config: " ++ e)
        (jparse provider.settings_config) with
    | Except.error e => Except.error e
    | Except.ok provider_config =>
      let auth := (jGet provider_config "auth").getD (J.obj [])
      let config0 := ((jGet provider_config "config").bind J.asStr).getD ""
      match layer_merged tparse tpretty sys.common_config config0 with
      | Except.error e => Except.error e
      | Except.ok config_toml =>
        match write_fail with
        | some e => Except.error e
        | none => Except.ok (auth, config_toml)

/-- Rust `apply_config_internal` (lines 460–487): write the files, and only
then run the two-step flag flip. -/
def apply_config_internal {α : Type}
    (jparse : String → Except String J)
    (tparse : String → Except String (List (String × α)))
    (tpretty : List (String × α) → String)
    (write_fail : Option String)
    (sys : CodexSys) (provider_id : String) (now : String) :
    Except String Unit × CodexSys :=
  match apply_config_to_file jparse tparse tpretty write_fail sys provider_id with
  | Except.error e => (Except.error e, sys)
  | Except.ok written =>
    (Except.ok (),
     { sys with providers := flip_applied sys.providers provider_id now
                files := some written })

/-! ### `init_codex_provider_from_settings` (commands.rs, lines 595–668)

`auth_file = none` models a missing `auth.json`; `some res` its
read-and-parse outcome.  `config_file` is the `config.toml` text when the
file exists and is readable (`unwrap_or_default` turns a read failure
into `""`, folded into the oracle).  `jser` is
`serde_json::to_string`. -/

def synthetic_settings (auth : J) (config_toml : String) : J :=
  J.obj [("auth", auth), ("config", J.str config_toml)]

def synthetic_content (settings_str now : String) : CodexProviderContent :=
  { provider_id := "default-config"
    name := "默认配置"
    category := ""
    settings_config := settings_str
    source_provider_id := none
    website_url := none
    notes := some "从配置文件自动导入"
    icon := none
    icon_color := none
    sort_index := some 0
    is_applied := true
    created_at := now
    updated_at := now }

def init_codex_provider_from_settings
    (auth_file : Option (Except String J))
    (config_file : Option String)
    (jser : J → String)
    (db : ProviderTable) (now : String) : Except String ProviderTable :=
  let has_providers := decide (0 < db.length)
  if has_providers then Except.ok db
  else
    match auth_file with
    | none => Except.ok db
    | some auth_res =>
      match emapErr (fun e => "Failed to parse auth.json: " ++ e) auth_res with
      | Except.error e => Except.error e
      | Except.ok auth =>
        let config_toml := config_file.getD ""
        let content := synthetic_content (jser (synthetic_settings auth config_toml)) now
        match store_create db content with
        | Except.error e => Except.error e
        | Except.ok db₂ => Except.ok db₂

/-! ## Operation sequences (claim C1)

One completed command invocation per step.  The store behaves honestly
(`honest_check` is the actual probe outcome); `applyP` carries the
parser/renderer/file-system oracles of that invocation. -/

def honest_check (db : ProviderTable) (id : String) : Except String ProviderTable :=
  Except.ok ((db.filter (fun r => r.provider_id == id)).take 1)

inductive COp where
  | createP (input : CodexProviderInput) (now : String) : COp
  | selectP (id : String) (now : String) : COp
  | applyP (jparse : String → Except String J)
      (tparse : String → Except String (List (String × J)))
      (tpretty : List (String × J) → String)
      (write_fail : Option String) (id : String) (now : String) : COp
  | updateP (p : CodexProvider) (now : String) : COp

def step_op (sys : CodexSys) : COp → CodexSys
  | COp.createP input now =>
    { sys with providers :=
        (create_codex_provider (honest_check sys.providers input.id) sys.providers input now).2 }
  | COp.selectP id now =>
    { sys with providers := (select_codex_provider sys.providers id now).2 }
  | COp.applyP jparse tparse tpretty write_fail id now =>
    (apply_config_internal jparse tparse tpretty write_fail sys id now).2
  | COp.updateP p now =>
    { sys with providers := (update_codex_provider sys.providers p now).2 }

def run_ops (sys : CodexSys) (ops : List COp) : CodexSys :=
  ops.foldl step_op sys

def count_applied (db : ProviderTable) : Nat :=
  (db.filter (fun r => r.is_applied)).length

def AtMostOneApplied (db : ProviderTable) : Prop := count_applied db ≤ 1

instance (db : ProviderTable) : Decidable (AtMostOneApplied db) := by
  unfold AtMostOneApplied; infer_instance

def PidsNodup (db : ProviderTable) : Prop := (db.map (fun r => r.provider_id)).Nodup

instance (db : ProviderTable) : Decidable (PidsNodup db) := by
  unfold PidsNodup; infer_instance

/-- The one update shape the counterexample forces us to exclude: an
update whose input claims `applied` while some other profile is the
applied one. -/
def op_safe (sys : CodexSys) : COp → Prop
  | COp.updateP p _ =>
    p.is_applied = true → ∀ r ∈ sys.providers, r.is_applied = true → r.provider_id = p.id
  | _ => True

def SafeOps (sys : CodexSys) : List COp → Prop
  | [] => True
  | op :: rest => op_safe sys op ∧ SafeOps (step_op sys op) rest

/-! ## Lemmas: table lookup under `table_insert` / `merge_tables` -/

theorem lookupT_cons {α : Type} (k₀ : String) (v₀ : α) (m : List (String × α)) (k : String) :
    lookupT ((k₀, v₀) :: m) k = if k₀ = k then some v₀ else lookupT m k := by
  by_cases h : k₀ = k <;> simp [lookupT, List.find?_cons, h]

theorem lookupT_eq_none {α : Type} {m : List (String × α)} {k : String}
    (h : ∀ kv ∈ m, kv.1 ≠ k) : lookupT m k = none := by
  induction m with
  | nil => rfl
  | cons hd tl ih =>
    obtain ⟨k₀, v₀⟩ := hd
    rw [lookupT_cons]
    rw [if_neg (h (k₀, v₀) (List.mem_cons_self _ _))]
    exact ih (fun kv hkv => h kv (List.mem_cons_of_mem _ hkv))

theorem lookupT_table_insert_self {α : Type} (m : List (String × α)) (k : String) (v : α) :
    lookupT (table_insert m k v) k = some v := by
  induction m with
  | nil => simp [table_insert, lookupT_cons]
  | cons hd tl ih =>
    obtain ⟨k₀, v₀⟩ := hd
    by_cases h : k₀ = k
    · simp [table_insert, h, lookupT_cons]
    · simp [table_insert, h, lookupT_cons, ih]

theorem lookupT_table_insert_ne {α : Type} (m : List (String × α)) {k k' : String} (v : α)
    (h : k' ≠ k) : lookupT (table_insert m k v) k' = lookupT m k' := by
  induction m with
  | nil => simp [table_insert, lookupT_cons, lookupT, Ne.symm h]
  | cons hd tl ih =>
    obtain ⟨k₀, v₀⟩ := hd
    by_cases hk : k₀ = k
    · subst hk
      rw [show table_insert ((k₀, v₀) :: tl) k₀ v = (k₀, v) :: tl from by simp [table_insert]]
      rw [lookupT_cons, lookupT_cons]
      have hne : k₀ ≠ k' := fun heq => h (heq.symm)
      rw [if_neg hne, if_neg hne]
    · rw [show table_insert ((k₀, v₀) :: tl) k v = (k₀, v₀) :: table_insert tl k v from by
        simp [table_insert, hk]]
      rw [lookupT_cons, lookupT_cons]
      by_cases hk' : k₀ = k'
      · rw [if_pos hk', if_pos hk']
      · rw [if_neg hk', if_neg hk', ih]

theorem merge_tables_cons {α : Type} (ct : List (String × α)) (k : String) (v : α)
    (pt : List (String × α)) :
    merge_tables ct ((k, v) :: pt) = merge_tables (table_insert ct k v) pt := rfl

theorem lookupT_merge_tables {α : Type} (ct pt : List (String × α)) (k : String)
    (hnd : (pt.map Prod.fst).Nodup) :
    lookupT (merge_tables ct pt) k = (lookupT pt k).or (lookupT ct k) := by
  induction pt generalizing ct with
  | nil => simp [merge_tables, lookupT]
  | cons hd tl ih =>
    obtain ⟨k₀, v₀⟩ := hd
    rw [merge_tables_cons]
    simp only [List.map_cons, List.nodup_cons] at hnd
    rw [ih _ hnd.2, lookupT_cons]
    by_cases h : k₀ = k
    · subst h
      have htl : lookupT tl k₀ = none := by
        apply lookupT_eq_none
        intro kv hkv heq
        exact hnd.1 (heq ▸ List.mem_map_of_mem Prod.fst hkv)
      rw [htl, lookupT_table_insert_self]
      simp
    · rw [lookupT_table_insert_ne _ _ (fun heq => h heq.symm), if_neg h]

instance instDecEqExcept {ε α : Type} [DecidableEq ε] [DecidableEq α] :
    DecidableEq (Except ε α) := fun x y =>
  match x, y with
  | Except.ok a, Except.ok b => decidable_of_iff (a = b) (by simp)
  | Except.ok _, Except.error _ => isFalse (fun hc => Except.noConfusion hc)
  | Except.error _, Except.ok _ => isFalse (fun hc => Except.noConfusion hc)
  | Except.error e, Except.error f => decidable_of_iff (e = f) (by simp)

/-- Claim C3: `mergeLayeredText(common, profile)` returns the other layer
unchanged when either layer is blank; when both are non-blank it parses
both as key→table documents and, per top-level key, the profile layer's
binding replaces the common layer's wholesale while keys only in the
common layer survive; it fails with a parse error on malformed input. -/
theorem merge_layered_text_spec {α : Type}
    (tparse : String → Except String (List (String × α)))
    (tpretty : List (String × α) → String) :
    (∀ common provider : String, isBlank common = true →
      merge_toml_configs tparse tpretty common provider = Except.ok provider)
    ∧ (∀ common provider : String, isBlank common = false → isBlank provider = true →
      merge_toml_configs tparse tpretty common provider = Except.ok common)
    ∧ (∀ common provider ct pt, isBlank common = false → isBlank provider = false →
      tparse common = Except.ok ct → tparse provider = Except.ok pt →
      (pt.map Prod.fst).Nodup →
      merge_toml_configs tparse tpretty common provider
          = Except.ok (tpretty (merge_tables ct pt))
        ∧ (∀ k v, lookupT pt k = some v → lookupT (merge_tables ct pt) k = some v)
        ∧ (∀ k, lookupT pt k = none → lookupT (merge_tables ct pt) k = lookupT ct k))
    ∧ (∀ common provider e, isBlank common = false → isBlank provider = false →
      tparse common = Except.error e →
      merge_toml_configs tparse tpretty common provider
        = Except.error ("Failed to parse common TOML: " ++ e))
    ∧ (∀ common provider ct e, isBlank common = false → isBlank provider = false →
      tparse common = Except.ok ct → tparse provider = Except.error e →
      merge_toml_configs tparse tpretty common provider
        = Except.error ("Failed to parse provider TOML: " ++ e)) := by
  refine ⟨?_, ?_, ?_, ?_, ?_⟩
  · intro common provider hc
    simp [merge_toml_configs, hc]
  · intro common provider hc hp
    simp [merge_toml_configs, hc, hp]
  · intro common provider ct pt hc hp hct hpt hnd
    refine ⟨by simp [merge_toml_configs, hc, hp, hct, hpt, emapErr], ?_, ?_⟩
    · intro k v hkv
      rw [lookupT_merge_tables ct pt k hnd, hkv, Option.or_some]
    · intro k hk
      rw [lookupT_merge_tables ct pt k hnd, hk, Option.none_or]
  · intro common provider e hc hp hce
    simp [merge_toml_configs, hc, hp, hce, emapErr]
  · intro common provider ct e hc hp hct hpe
    simp [merge_toml_configs, hc, hp, hct, hpe, emapErr]

/-- Witness for C3 at concrete layers: common text binds `region` and
`keep`, profile text rebinds `region`; blank layers pass through; parse
errors surface. -/
theorem merge_layered_text_spec_witness :
    (merge_toml_configs
        (fun s => if s = "c" then Except.ok [("region", (0 : Int)), ("keep", 1)]
          else if s = "p" then Except.ok [("region", 2)] else Except.error "bad")
        (fun _ => "merged") "" "p" = Except.ok "p")
    ∧ (merge_toml_configs
        (fun s => if s = "c" then Except.ok [("region", (0 : Int)), ("keep", 1)]
          else if s = "p" then Except.ok [("region", 2)] else Except.error "bad")
        (fun _ => "merged") "c" " " = Except.ok "c")
    ∧ (merge_toml_configs
        (fun s => if s = "c" then Except.ok [("region", (0 : Int)), ("keep", 1)]
          else if s = "p" then Except.ok [("region", 2)] else Except.error "bad")
        (fun _ => "merged") "c" "p" = Except.ok "merged")
    ∧ lookupT (merge_tables [("region", (0 : Int)), ("keep", 1)] [("region", 2)]) "region"
        = some 2
    ∧ lookupT (merge_tables [("region", (0 : Int)), ("keep", 1)] [("region", 2)]) "keep"
        = some 1
    ∧ (merge_toml_configs
        (fun s => if s = "c" then Except.ok [("region", (0 : Int)), ("keep", 1)]
          else if s = "p" then Except.ok [("region", 2)] else Except.error "bad")
        (fun _ => "merged") "c" "zz" = Except.error ("Failed to parse provider TOML: " ++ "bad")) := by
  have h := merge_layered_text_spec
    (fun s => if s = "c" then Except.ok [("region", (0 : Int)), ("keep", 1)]
      else if s = "p" then Except.ok [("region", 2)] else Except.error "bad")
    (fun _ => "merged")
  refine ⟨h.1 "" "p" (by decide), h.2.1 "c" " " (by decide) (by decide), ?_, ?_, ?_, ?_⟩
  · exact (h.2.2.1 "c" "p" [("region", (0 : Int)), ("keep", 1)] [("region", 2)]
      (by decide) (by decide) (by decide) (by decide) (by decide)).1
  · exact (h.2.2.1 "c" "p" [("region", (0 : Int)), ("keep", 1)] [("region", 2)]
      (by decide) (by decide) (by decide) (by decide) (by decide)).2.1 "region" 2 (by decide)
  · exact ((h.2.2.1 "c" "p" [("region", (0 : Int)), ("keep", 1)] [("region", 2)]
      (by decide) (by decide) (by decide) (by decide) (by decide)).2.2 "keep"
      (by decide)).trans (by decide)
  · exact h.2.2.2.2 "c" "zz" [("region", (0 : Int)), ("keep", 1)] "bad"
      (by decide) (by decide) (by decide) (by decide)

/-- Claim C8: `list()` returns the family's profiles ordered by sort index
ascending, a missing sort index reading as 0; a batch deserialization
failure degrades to an empty list instead of an error; only the query
call itself failing is a hard error. -/
theorem list_codex_providers_spec :
    (∀ records sorted,
      list_codex_providers none (Except.ok records) = Except.ok sorted →
      sorted.Perm (records.map from_db_value_provider)
        ∧ sorted.Pairwise (fun a b => a.sort_index.getD 0 ≤ b.sort_index.getD 0))
    ∧ (∀ e, list_codex_providers none (Except.error e) = Except.ok [])
    ∧ (∀ e rr, list_codex_providers (some e) rr
        = Except.error ("Failed to query providers: " ++ e)) := by
  refine ⟨?_, fun e => rfl, fun e rr => rfl⟩
  intro records sorted h
  simp only [list_codex_providers, Except.ok.injEq] at h
  subst h
  refine ⟨List.mergeSort_perm _ _, ?_⟩
  have hs : (List.mergeSort (records.map from_db_value_provider)
      (fun a b => decide (sort_key a ≤ sort_key b))).Pairwise
        (fun a b => decide (sort_key a ≤ sort_key b) = true) := by
    apply List.sorted_mergeSort
    · intro a b c hab hbc
      simp only [decide_eq_true_eq] at hab hbc ⊢
      omega
    · intro a b
      simp only [Bool.or_eq_true, decide_eq_true_eq]
      omega
  exact hs.imp (fun h => by simpa [sort_key] using h)

/-- A minimal provider record (only id and sort index vary). -/
def c8_rec (pid : String) (si : Option Int) : CodexProviderContent :=
  { provider_id := pid, name := "", category := "", settings_config := "",
    source_provider_id := none, website_url := none, notes := none, icon := none,
    icon_color := none, sort_index := si, is_applied := false,
    created_at := "", updated_at := "" }

/-- Witness for C8 at a concrete two-record table, plus the
deserialization-failure fallback. -/
theorem list_codex_providers_spec_witness :
    (List.mergeSort ([c8_rec "a" (some 1), c8_rec "b" none].map from_db_value_provider)
        (fun a b => decide (sort_key a ≤ sort_key b))).Perm
      ([c8_rec "a" (some 1), c8_rec "b" none].map from_db_value_provider)
    ∧ list_codex_providers none (Except.error "boom") = Except.ok [] :=
  ⟨(list_codex_providers_spec.1 [c8_rec "a" (some 1), c8_rec "b" none] _ rfl).1,
   list_codex_providers_spec.2.1 "boom"⟩

theorem dup_id_error_ne_store (id : String) :
    dup_id_error id ≠ "Failed to create provider: record already exists" := by
  intro h
  have h1 : (dup_id_error id).data.head? = some 'C' := rfl
  rw [h] at h1
  exact absurd h1 (by decide)

/-- Claim C10: `create` returns the DuplicateId error only when the existence
probe both succeeds and returns a record; a probe whose result fails to
deserialize is silently ignored and creation proceeds exactly as for an
empty probe result. -/
theorem create_duplicate_check_spec (db : ProviderTable) (input : CodexProviderInput)
    (now : String) :
    (∀ records, records ≠ [] →
      create_codex_provider (Except.ok records) db input now
        = (Except.error (dup_id_error input.id), db))
    ∧ (∀ e, create_codex_provider (Except.error e) db input now
        = create_codex_provider (Except.ok []) db input now)
    ∧ (∀ e, (∀ r ∈ db, r.provider_id ≠ input.id) →
      create_codex_provider (Except.error e) db input now
        = (Except.ok (from_db_value_provider (content_of_input input now)),
           db ++ [content_of_input input now]))
    ∧ (∀ e msg, (create_codex_provider (Except.error e) db input now).1
        = Except.error msg → msg ≠ dup_id_error input.id) := by
  refine ⟨?_, fun e => rfl, ?_, ?_⟩
  · intro records hne
    cases records with
    | nil => exact absurd rfl hne
    | cons r rs => rfl
  · intro e h
    have hany : db.any (fun r => r.provider_id == (content_of_input input now).provider_id)
        = false := by
      rw [List.any_eq_false]
      intro r hr
      simp only [content_of_input, beq_iff_eq]
      exact h r hr
    simp [create_codex_provider, create_unchecked, store_create, hany]
  · intro e msg hmsg
    by_cases hany :
        db.any (fun r => r.provider_id == (content_of_input input now).provider_id) = true
    · have hconst : msg = "Failed to create provider: record already exists" := by
        simp [create_codex_provider, create_unchecked, store_create, hany] at hmsg
        exact hmsg.symm
      intro hdup
      exact dup_id_error_ne_store input.id (hdup ▸ hconst)
    · rw [Bool.not_eq_true] at hany
      simp [create_codex_provider, create_unchecked, store_create, hany] at hmsg

/-- A minimal provider input. -/
def c10_input : CodexProviderInput :=
  { id := "x", name := "n", category := "", settings_config := "{}",
    source_provider_id := none, website_url := none, notes := none, icon := none,
    icon_color := none, sort_index := none }

/-- Witness for C10: a nonempty successful probe rejects the duplicate; a
failed probe on an empty table proceeds and creates the record. -/
theorem create_duplicate_check_spec_witness :
    create_codex_provider (Except.ok [c8_rec "x" none]) [] c10_input "t"
      = (Except.error (dup_id_error "x"), [])
    ∧ create_codex_provider (Except.error "boom") [] c10_input "t"
      = (Except.ok (from_db_value_provider (content_of_input c10_input "t")),
         [content_of_input c10_input "t"]) := by
  constructor
  · exact (create_duplicate_check_spec [] c10_input "t").1 [c8_rec "x" none] (by decide)
  · exact ((create_duplicate_check_spec [] c10_input "t").2.2.1 "boom" (by simp)).trans
      (by simp)

theorem any_filter_ne_self (db : ProviderTable) (pid : String) :
    (db.filter (fun q => !(q.provider_id == pid))).any (fun r => r.provider_id == pid)
      = false := by
  rw [List.any_eq_false]
  intro x hx
  have hkeep := (List.mem_filter.mp hx).2
  simp only [Bool.not_eq_true', beq_eq_false_iff_ne, ne_eq] at hkeep
  simp only [beq_iff_eq]
  exact hkeep

/-- The as-stated claim C6 is false: with a non-blank input `created_at`
the existence check is skipped, so updating a non-existent profile does
not fail with NotFound — it recreates the record. -/
def c6_ghost : CodexProvider :=
  { id := "ghost", name := "", category := "", settings_config := "",
    source_provider_id := none, website_url := none, notes := none, icon := none,
    icon_color := none, sort_index := none, is_applied := false,
    created_at := "2024-01-01", updated_at := "" }

/-- Counterexample to C6 as stated: `update` on an empty table with input
`created_at = "2024-01-01"` does not return NotFound; it creates the
record. -/
theorem update_notfound_counterexample :
    (update_codex_provider [] c6_ghost "2024-02-02").1
        ≠ Except.error "Provider not found"
    ∧ (update_codex_provider [] c6_ghost "2024-02-02").2
        = [update_content c6_ghost "2024-01-01" "2024-02-02"] := by
  decide

/-- Claim C6, amended: `update` fails with NotFound exactly when the input's
`created_at` is blank and no profile with that id exists; a non-blank
input `created_at` skips the existence check and the record is written
even when absent.  On success the stored record's `created_at` is the
input's when non-blank, otherwise the existing record's, and
`updated_at` is set to now. -/
theorem update_codex_provider_spec (db : ProviderTable) (p : CodexProvider) (now : String) :
    (p.created_at = "" → findProvider db p.id = none →
      update_codex_provider db p now = (Except.error "Provider not found", db))
    ∧ (∀ r, p.created_at = "" → findProvider db p.id = some r →
      update_codex_provider db p now
        = (Except.ok (from_db_value_provider (update_content p r.created_at now)),
           db.filter (fun q => !(q.provider_id == p.id))
             ++ [update_content p r.created_at now]))
    ∧ (p.created_at ≠ "" →
      update_codex_provider db p now
        = (Except.ok (from_db_value_provider (update_content p p.created_at now)),
           db.filter (fun q => !(q.provider_id == p.id))
             ++ [update_content p p.created_at now]))
    ∧ (∀ c t, (update_content p c t).created_at = c ∧ (update_content p c t).updated_at = t) := by
  refine ⟨?_, ?_, ?_, fun c t => ⟨rfl, rfl⟩⟩
  · intro hblank hfind
    have hempty : p.created_at.isEmpty = true := by
      rw [hblank]; rfl
    simp [update_codex_provider, hempty, hfind]
  · intro r hblank hfind
    have hempty : p.created_at.isEmpty = true := by
      rw [hblank]; rfl
    have hany := any_filter_ne_self db p.id
    simp [update_codex_provider, hempty, hfind, store_create, update_content, hany]
  · intro hne
    have hempty : p.created_at.isEmpty = false := by
      cases hval : p.created_at.isEmpty
      · rfl
      · exact absurd ((String.isEmpty_iff _).mp hval) hne
    have hany := any_filter_ne_self db p.id
    simp [update_codex_provider, hempty, store_create, update_content, hany]

/-- An update input with a blank `created_at`. -/
def c6_blank : CodexProvider :=
  { id := "g", name := "", category := "", settings_config := "",
    source_provider_id := none, website_url := none, notes := none, icon := none,
    icon_color := none, sort_index := none, is_applied := false,
    created_at := "", updated_at := "" }

/-- Witness for the amended C6: blank `created_at` + absent id gives
NotFound; blank `created_at` + present id refetches the stored
`created_at`; non-blank `created_at` keeps the input's. -/
theorem update_codex_provider_spec_witness :
    update_codex_provider [] c6_blank "t" = (Except.error "Provider not found", [])
    ∧ update_codex_provider [c8_rec "g" none] c6_blank "t"
        = (Except.ok (from_db_value_provider (update_content c6_blank (c8_rec "g" none).created_at "t")),
           [c8_rec "g" none].filter (fun q => !(q.provider_id == "g"))
             ++ [update_content c6_blank (c8_rec "g" none).created_at "t"])
    ∧ update_codex_provider [] c6_ghost "t"
        = (Except.ok (from_db_value_provider (update_content c6_ghost "2024-01-01" "t")),
           ([] : ProviderTable).filter (fun q => !(q.provider_id == "ghost"))
             ++ [update_content c6_ghost "2024-01-01" "t"]) := by
  refine ⟨(update_codex_provider_spec [] c6_blank "t").1 rfl rfl, ?_, ?_⟩
  · exact (update_codex_provider_spec [c8_rec "g" none] c6_blank "t").2.1
      (c8_rec "g" none) rfl (by decide)
  · exact (update_codex_provider_spec [] c6_ghost "t").2.2.1 (by decide)

/-- Claim C7: First-run import: with an empty table and a readable legacy
`auth.json`, exactly one synthetic profile is created, with the fixed id
`default-config`, `sort_index = 0` and `applied = true`; with a nonempty
table the import changes nothing, so a second startup after a successful
first import does not re-import. -/
theorem init_import_spec (config_file : Option String) (jser : J → String) (now : String) :
    (∀ auth, init_codex_provider_from_settings (some (Except.ok auth)) config_file jser [] now
      = Except.ok [synthetic_content (jser (synthetic_settings auth (config_file.getD ""))) now])
    ∧ (∀ s t, (synthetic_content s t).provider_id = "default-config"
        ∧ (synthetic_content s t).sort_index = some 0
        ∧ (synthetic_content s t).is_applied = true)
    ∧ (∀ db : ProviderTable, db ≠ [] → ∀ af,
      init_codex_provider_from_settings af config_file jser db now = Except.ok db) := by
  refine ⟨fun auth => rfl, fun s t => ⟨rfl, rfl, rfl⟩, ?_⟩
  intro db hne af
  cases db with
  | nil => exact absurd rfl hne
  | cons r rs => simp [init_codex_provider_from_settings]

/-- Witness for C7: concrete import on an empty table, and a no-op on a
one-record table. -/
theorem init_import_spec_witness :
    init_codex_provider_from_settings (some (Except.ok J.null)) none (fun _ => "s") [] "t"
      = Except.ok [synthetic_content "s" "t"]
    ∧ (synthetic_content "s" "t").provider_id = "default-config"
    ∧ (synthetic_content "s" "t").sort_index = some 0
    ∧ (synthetic_content "s" "t").is_applied = true
    ∧ init_codex_provider_from_settings (some (Except.ok J.null)) none (fun _ => "s")
        [synthetic_content "s" "t"] "u" = Except.ok [synthetic_content "s" "t"] := by
  refine ⟨(init_import_spec none (fun _ => "s") "t").1 J.null, ?_, ?_, ?_, ?_⟩
  · exact ((init_import_spec none (fun _ => "s") "t").2.1 "s" "t").1
  · exact ((init_import_spec none (fun _ => "s") "t").2.1 "s" "t").2.1
  · exact ((init_import_spec none (fun _ => "s") "t").2.1 "s" "t").2.2
  · exact (init_import_spec none (fun _ => "s") "u").2.2 [synthetic_content "s" "t"]
      (by simp) (some (Except.ok J.null))

/-- Claim C2: In `apply(id)` the file write happens strictly before the
applied-flag transition: when the write (or directory creation) fails,
its error is returned to the caller and the provider table — in
particular every applied flag — is left untouched; the flags can change
only on a call whose write step succeeded. -/
theorem apply_write_before_flip {α : Type}
    (jparse : String → Except String J)
    (tparse : String → Except String (List (String × α)))
    (tpretty : List (String × α) → String)
    (sys : CodexSys) (pid now e : String) (record : CodexProviderContent) (jv : J)
    (merged : String)
    (hfind : findProvider sys.providers pid = some record)
    (hparse : jparse record.settings_config = Except.ok jv)
    (hmerge : layer_merged tparse tpretty sys.common_config
        (((jGet jv "config").bind J.asStr).getD "") = Except.ok merged) :
    apply_config_internal jparse tparse tpretty (some e) sys pid now = (Except.error e, sys)
    ∧ ∀ wres : Option String,
      (apply_config_internal jparse tparse tpretty wres sys pid now).2.providers
          ≠ sys.providers → wres = none := by
  have hfile : apply_config_to_file jparse tparse tpretty (some e) sys pid
      = Except.error e := by
    simp [apply_config_to_file, hfind, hparse, hmerge, emapErr, from_db_value_provider]
  refine ⟨by simp [apply_config_internal, hfile], ?_⟩
  intro wres hne
  cases wres with
  | none => rfl
  | some f =>
    exfalso
    apply hne
    have hfile₂ : apply_config_to_file jparse tparse tpretty (some f) sys pid
        = Except.error f := by
      simp [apply_config_to_file, hfind, hparse, hmerge, emapErr, from_db_value_provider]
    simp [apply_config_internal, hfile₂]

/-- Witness for C2: one stored provider, a failing disk; the call returns
the disk error and the table is unchanged. -/
theorem apply_write_before_flip_witness :
    apply_config_internal (fun _ => Except.ok (J.obj []))
        (fun _ => Except.ok ([] : List (String × Unit))) (fun _ => "")
        (some "disk full")
        { providers := [c8_rec "a" none], common_config := none, files := none } "a" "t"
      = (Except.error "disk full",
         { providers := [c8_rec "a" none], common_config := none, files := none }) := by
  exact (apply_write_before_flip (fun _ => Except.ok (J.obj []))
    (fun _ => Except.ok ([] : List (String × Unit))) (fun _ => "")
    { providers := [c8_rec "a" none], common_config := none, files := none }
    "a" "t" "disk full" (c8_rec "a" none) (J.obj []) ""
    rfl rfl rfl).1

/-! ## Lemmas for `deep_merge_json` / `clean_empty_values` (claim C9) -/

theorem deep_merge_obj_nil (y : J) : deep_merge_json y (J.obj []) = y := by
  cases y <;> simp [deep_merge_json, deep_merge_fields]

theorem wfFields_parts {k : String} {v : J} {rest : List (String × J)}
    (h : wfFields ((k, v) :: rest) = true) :
    containsKey rest k = false ∧ wfJ v = true ∧ wfFields rest = true := by
  have h' := h
  simp only [wfFields, Bool.and_eq_true, Bool.not_eq_true'] at h'
  exact ⟨h'.1.1, h'.1.2, h'.2⟩

theorem wfJ_of_mem_wfFields {f : List (String × J)} (hwf : wfFields f = true)
    {k : String} {v : J} (hm : (k, v) ∈ f) : wfJ v = true := by
  induction f with
  | nil => cases hm
  | cons hd tl ih =>
    obtain ⟨k₀, v₀⟩ := hd
    obtain ⟨-, hv₀, htl⟩ := wfFields_parts hwf
    cases hm with
    | head => exact hv₀
    | tail _ hmem => exact ih htl hmem

theorem containsKey_of_mem {f : List (String × J)} {k : String} {v : J}
    (hm : (k, v) ∈ f) : containsKey f k = true := by
  induction f with
  | nil => cases hm
  | cons hd tl ih =>
    cases hm with
    | head => simp [containsKey]
    | tail _ hmem =>
      have h1 := ih hmem
      simp [containsKey] at h1 ⊢
      exact Or.inr h1

theorem deep_merge_entry_cons_ne (k₀ : String) (bv : J) (tl : List (String × J))
    (k : String) (v : J) (hk : ¬(k₀ = k)) :
    deep_merge_entry ((k₀, bv) :: tl) k v = (k₀, bv) :: deep_merge_entry tl k v := by
  conv_lhs => unfold deep_merge_entry
  simp [hk]

theorem deep_merge_entry_mem (bf : List (String × J)) (k : String) (v : J)
    (hwf : wfFields bf = true) (hm : (k, v) ∈ bf) (hvv : deep_merge_json v v = v) :
    deep_merge_entry bf k v = bf := by
  induction bf with
  | nil => cases hm
  | cons hd tl ih =>
    obtain ⟨k₀, bv⟩ := hd
    obtain ⟨hck, hbv, htl⟩ := wfFields_parts hwf
    by_cases hk : k₀ = k
    · subst hk
      have hbv_eq : bv = v := by
        cases hm with
        | head => rfl
        | tail _ hmem => exact absurd (containsKey_of_mem hmem) (by rw [hck]; simp)
      subst hbv_eq
      cases bv with
      | obj a =>
        have ha : deep_merge_fields a a = a := by
          have h2 := hvv
          rw [show deep_merge_json (J.obj a) (J.obj a) = J.obj (deep_merge_fields a a) from by
            simp [deep_merge_json]] at h2
          exact J.obj.inj h2
        simp [deep_merge_entry, ha]
      | null => simp [deep_merge_entry]
      | bool b => simp [deep_merge_entry]
      | num n => simp [deep_merge_entry]
      | str s => simp [deep_merge_entry]
      | arr xs => simp [deep_merge_entry]
    · have hmem : (k, v) ∈ tl := by
        cases hm with
        | head => exact absurd rfl hk
        | tail _ hmem => exact hmem
      rw [deep_merge_entry_cons_ne _ _ _ _ _ hk, ih htl hmem]

theorem deep_merge_fields_subset (bf ov : List (String × J))
    (hwf : wfFields bf = true)
    (h : ∀ k v, (k, v) ∈ ov → (k, v) ∈ bf ∧ deep_merge_json v v = v) :
    deep_merge_fields bf ov = bf := by
  induction ov with
  | nil => simp [deep_merge_fields]
  | cons hd tl ih =>
    obtain ⟨k, v⟩ := hd
    have h₁ := h k v (List.mem_cons_self _ _)
    rw [show deep_merge_fields bf ((k, v) :: tl)
        = deep_merge_fields (deep_merge_entry bf k v) tl from by simp [deep_merge_fields]]
    rw [deep_merge_entry_mem bf k v hwf h₁.1 h₁.2]
    exact ih (fun k₁ v₁ hm => h k₁ v₁ (List.mem_cons_of_mem _ hm))

theorem deep_merge_self_aux :
    ∀ (n : Nat) (x : J), sizeOf x ≤ n → wfJ x = true → deep_merge_json x x = x := by
  intro n
  induction n with
  | zero =>
    intro x hsz
    exfalso
    cases x <;> simp at hsz
  | succ n ih =>
    intro x hsz hwf
    match x with
    | J.null => simp [deep_merge_json]
    | J.bool b => simp [deep_merge_json]
    | J.num m => simp [deep_merge_json]
    | J.str s => simp [deep_merge_json]
    | J.arr xs => simp [deep_merge_json]
    | J.obj f =>
      rw [show deep_merge_json (J.obj f) (J.obj f) = J.obj (deep_merge_fields f f) from by
        simp [deep_merge_json]]
      rw [deep_merge_fields_subset f f (by simpa [wfJ] using hwf) ?_]
      intro k v hm
      refine ⟨hm, ih v ?_ (wfJ_of_mem_wfFields (by simpa [wfJ] using hwf) hm)⟩
      have h1 := List.sizeOf_lt_of_mem hm
      have h2 : sizeOf (J.obj f) = 1 + sizeOf f := by simp
      have h3 : sizeOf v < sizeOf (k, v) := by simp
      omega

/-- Claim C9: `deepMerge(pruneEmpty(x), {})` equals `pruneEmpty(x)`; merging a
well-formed document with itself is the identity; `pruneEmpty` keeps
sequences (even empty ones) and an entry survives pruning exactly when
its recursively pruned value is neither an empty mapping nor null. -/
theorem deep_merge_prune_spec :
    (∀ x, deep_merge_json (clean_empty_values x) (J.obj []) = clean_empty_values x)
    ∧ (∀ x, wfJ x = true → deep_merge_json x x = x)
    ∧ (∀ xs, clean_empty_values (J.arr xs) = J.arr xs)
    ∧ (∀ fields k v, ((k, v) ∈ clean_fields fields ↔
        ∃ w, (k, w) ∈ fields ∧ clean_empty_values w = v
          ∧ isEmptyObj v = false ∧ v.isNull = false))
    ∧ (∀ fields, clean_empty_values (J.obj fields) = J.obj (clean_fields fields)) := by
  refine ⟨fun x => deep_merge_obj_nil _,
    fun x h => deep_merge_self_aux (sizeOf x) x (le_refl _) h,
    fun xs => by simp [clean_empty_values], ?_,
    fun fields => by simp [clean_empty_values]⟩
  intro fields k v
  induction fields with
  | nil => simp [clean_fields]
  | cons hd tl ih =>
    obtain ⟨k₀, w₀⟩ := hd
    by_cases hdrop :
        (isEmptyObj (clean_empty_values w₀) || (clean_empty_values w₀).isNull) = true
    · rw [show clean_fields ((k₀, w₀) :: tl) = clean_fields tl from by
        simp [clean_fields, hdrop]]
      rw [ih]
      constructor
      · rintro ⟨w, hw, hc, he, hn⟩
        exact ⟨w, List.mem_cons_of_mem _ hw, hc, he, hn⟩
      · rintro ⟨w, hw, hc, he, hn⟩
        rcases List.mem_cons.mp hw with heq | hmem
        · injection heq with hk hww
          subst hww
          rw [hc] at hdrop
          rw [he, hn] at hdrop
          cases hdrop
        · exact ⟨w, hmem, hc, he, hn⟩
    · rw [show clean_fields ((k₀, w₀) :: tl)
          = (k₀, clean_empty_values w₀) :: clean_fields tl from by
        simp [clean_fields, hdrop]]
      rw [Bool.not_eq_true] at hdrop
      obtain ⟨he₀, hn₀⟩ := Bool.or_eq_false_iff.mp hdrop
      constructor
      · intro hmem
        rcases List.mem_cons.mp hmem with heq | hmem2
        · injection heq with hk hv
          subst hk
          refine ⟨w₀, List.mem_cons_self _ _, hv.symm, ?_, ?_⟩
          · rw [hv]; exact he₀
          · rw [hv]; exact hn₀
        · obtain ⟨w, hw, hc, he, hn⟩ := ih.mp hmem2
          exact ⟨w, List.mem_cons_of_mem _ hw, hc, he, hn⟩
      · rintro ⟨w, hw, hc, he, hn⟩
        rcases List.mem_cons.mp hw with heq | hmem2
        · injection heq with hk hww
          subst hk
          subst hww
          exact List.mem_cons.mpr (Or.inl (by rw [hc]))
        · exact List.mem_cons.mpr (Or.inr (ih.mpr ⟨w, hmem2, hc, he, hn⟩))

/-- A sample document: a number, a nested object holding only a null, and
an empty array. -/
def c9_x : J := J.obj [("a", J.num 1), ("b", J.obj [("c", J.null)]), ("d", J.arr [])]

/-- Witness for C9 at the sample document. -/
theorem deep_merge_prune_spec_witness :
    deep_merge_json (clean_empty_values c9_x) (J.obj []) = clean_empty_values c9_x
    ∧ deep_merge_json c9_x c9_x = c9_x
    ∧ clean_empty_values (J.arr [J.obj []]) = J.arr [J.obj []]
    ∧ (("k", J.num 5) ∈ clean_fields [("k", J.num 5)] ↔
        ∃ w, ("k", w) ∈ [("k", J.num 5)] ∧ clean_empty_values w = J.num 5
          ∧ isEmptyObj (J.num 5) = false ∧ (J.num 5).isNull = false) :=
  ⟨deep_merge_prune_spec.1 c9_x,
   deep_merge_prune_spec.2.1 c9_x (by rfl),
   deep_merge_prune_spec.2.2.1 [J.obj []],
   deep_merge_prune_spec.2.2.2.1 [("k", J.num 5)] "k" (J.num 5)⟩

/-! ## Lemmas about the path model (claims C4, C5) -/

theorem splitOnSlashAux_append_nonslash (c : List Char) (hc : '/' ∉ c)
    (s acc : List Char) :
    splitOnSlashAux (c ++ s) acc = splitOnSlashAux s (c.reverse ++ acc) := by
  induction c generalizing acc with
  | nil => simp
  | cons ch ct ih =>
    have hch : ch ≠ '/' := fun heq => hc (by rw [← heq]; exact List.mem_cons_self _ _)
    rw [List.cons_append]
    rw [show splitOnSlashAux (ch :: (ct ++ s)) acc = splitOnSlashAux (ct ++ s) (ch :: acc)
      from by simp [splitOnSlashAux, hch]]
    rw [ih (fun hm => hc (List.mem_cons_of_mem _ hm))]
    simp

theorem splitOnSlash_single (c : List Char) (hc : '/' ∉ c) :
    splitOnSlash c = [c] := by
  have h := splitOnSlashAux_append_nonslash c hc [] []
  simp only [List.append_nil] at h
  rw [splitOnSlash, h]
  simp [splitOnSlashAux]

theorem splitOnSlash_cons_intercalate (c : List Char) (hc : '/' ∉ c) (rel : List PStr)
    (hrel : rel ≠ []) :
    splitOnSlash (intercalateSlash (c :: rel)) = c :: splitOnSlash (intercalateSlash rel) := by
  cases rel with
  | nil => exact absurd rfl hrel
  | cons c₂ rest =>
    rw [show intercalateSlash (c :: c₂ :: rest)
        = c ++ '/' :: intercalateSlash (c₂ :: rest) from rfl]
    rw [splitOnSlash, splitOnSlashAux_append_nonslash c hc _ []]
    rw [show splitOnSlashAux ('/' :: intercalateSlash (c₂ :: rest)) (c.reverse ++ [])
        = (c.reverse ++ []).reverse :: splitOnSlashAux (intercalateSlash (c₂ :: rest)) []
      from by simp [splitOnSlashAux]]
    simp [splitOnSlash]

theorem parse_components_intercalate (rel : List PStr)
    (h : ∀ c ∈ rel, c ≠ [] ∧ '/' ∉ c ∧ c ≠ ['.']) :
    parse_components (intercalateSlash rel) = rel := by
  induction rel with
  | nil => rfl
  | cons c rest ih =>
    obtain ⟨hc0, hcs, hcd⟩ := h c (List.mem_cons_self _ _)
    have hkc : keepComp c = true := by
      simp [keepComp, hc0, hcd]
    cases rest with
    | nil =>
      rw [show intercalateSlash [c] = c from rfl]
      rw [parse_components, splitOnSlash_single c hcs]
      simp [hkc]
    | cons c₂ rest₂ =>
      rw [parse_components, splitOnSlash_cons_intercalate c hcs _ (by simp),
        List.filter_cons]
      simp only [hkc, if_true]
      have h₂ := ih (fun d hd => h d (List.mem_cons_of_mem _ hd))
      rw [parse_components] at h₂
      rw [h₂]

theorem replaceBackslashes_eq_self (s : List Char) :
    '\\' ∉ s → replaceBackslashes s = s := by
  induction s with
  | nil => intro h; rfl
  | cons c t ih =>
    intro h
    have hc : c ≠ '\\' := fun heq => h (by rw [← heq]; exact List.mem_cons_self _ _)
    have ht := ih (fun hm => h (List.mem_cons_of_mem _ hm))
    calc replaceBackslashes (c :: t)
        = (if c = '\\' then '/' else c) :: replaceBackslashes t := rfl
      _ = c :: replaceBackslashes t := by rw [if_neg hc]
      _ = c :: t := by rw [ht]

theorem backslash_not_mem_intercalateSlash (rel : List PStr)
    (h : ∀ c ∈ rel, '\\' ∉ c) : '\\' ∉ intercalateSlash rel := by
  induction rel with
  | nil => simp [intercalateSlash]
  | cons c rest ih =>
    cases rest with
    | nil =>
      rw [show intercalateSlash [c] = c from rfl]
      exact h c (List.mem_cons_self _ _)
    | cons c₂ rest₂ =>
      rw [show intercalateSlash (c :: c₂ :: rest₂)
          = c ++ '/' :: intercalateSlash (c₂ :: rest₂) from rfl]
      intro hm
      rcases List.mem_append.mp hm with h1 | h2
      · exact h c (List.mem_cons_self _ _) h1
      · rcases List.mem_cons.mp h2 with heq | h3
        · exact absurd heq (by decide)
        · exact ih (fun d hd => h d (List.mem_cons_of_mem _ hd)) h3

theorem strip_prefix_comps_append (central rel : UPath) :
    strip_prefix_comps central (central ++ rel) = some rel := by
  induction central with
  | nil => simp [strip_prefix_comps]
  | cons c cs ih => simp [strip_prefix_comps, ih]

theorem is_unix_absolute_eq_false_of_any (s : PStr)
    (h : is_any_platform_absolute s = false) : is_unix_absolute s = false := by
  by_cases hu : is_unix_absolute s = true
  · simp [is_any_platform_absolute, hu] at h
  · rw [Bool.not_eq_true] at hu
    exact hu

/-- Counterexample to C4 as stated: the Unix path
`/data/skills/a\b` (one component whose name contains a backslash) lies
under the central dir `/data/skills`, but storing and resolving it yields
`/data/skills/a/b`: `to_relative_central_path` rewrites the backslash to a
slash, which `join` then treats as a separator. -/
theorem resolve_round_trip_counterexample :
    resolve_skill_central_path (fun _ => false)
        (to_relative_central_path ["data".data, "skills".data, "a\\b".data]
          ["data".data, "skills".data])
        ["data".data, "skills".data]
      ≠ ["data".data, "skills".data, "a\\b".data] := by
  decide

/-- Claim C4, amended: For an absolute path `central ++ rel` under the
central dir whose relative components are nonempty, contain neither `/`
nor `\`, are not `"."`, and whose slash-rendering does not match any
platform's absolute-path shape, storing then resolving returns the
identical path, whatever the file-system contents. -/
theorem resolve_round_trip (central rel : UPath) (ex : UPath → Bool)
    (hcomps : ∀ c ∈ rel, c ≠ [] ∧ '/' ∉ c ∧ '\\' ∉ c ∧ c ≠ ['.'])
    (habs : is_any_platform_absolute (intercalateSlash rel) = false) :
    resolve_skill_central_path ex (to_relative_central_path (central ++ rel) central) central
      = central ++ rel := by
  have hto : to_relative_central_path (central ++ rel) central = intercalateSlash rel := by
    rw [to_relative_central_path, strip_prefix_comps_append central rel]
    exact replaceBackslashes_eq_self _
      (backslash_not_mem_intercalateSlash rel (fun c hc => (hcomps c hc).2.2.1))
  rw [hto]
  have hu := is_unix_absolute_eq_false_of_any _ habs
  rw [resolve_skill_central_path]
  simp only [hu, Bool.false_and, habs]
  rw [if_neg (by decide), if_neg (by decide)]
  rw [join_path, if_neg (by simp [hu])]
  rw [parse_components_intercalate rel
    (fun c hc => ⟨(hcomps c hc).1, (hcomps c hc).2.1, (hcomps c hc).2.2.2⟩)]

/-- Witness for the amended C4: `/data/skills/foo` round-trips. -/
theorem resolve_round_trip_witness :
    resolve_skill_central_path (fun _ => false)
        (to_relative_central_path ["data".data, "skills".data, "foo".data]
          ["data".data, "skills".data])
        ["data".data, "skills".data]
      = ["data".data, "skills".data, "foo".data] :=
  resolve_round_trip ["data".data, "skills".data] ["foo".data] (fun _ => false)
    (by decide) (by decide)

/-- Claim C5: `resolveStored` uses the stored path as-is only when it is a
native absolute path that exists locally; otherwise, when it matches any
platform's absolute shape it re-anchors only the final non-empty segment
under the central dir; otherwise it joins the stored path under the
central dir; and the stored Windows path `C:\Users\x\skills\foo` resolved
on a non-Windows machine with central dir `/data/skills` yields
`/data/skills/foo`. -/
theorem resolve_stored_spec (central : UPath) (s : PStr) (ex : UPath → Bool) :
    (is_unix_absolute s = true → ex (parse_components s) = true →
      resolve_skill_central_path ex s central = parse_components s)
    ∧ ((is_unix_absolute s && ex (parse_components s)) = false →
      is_any_platform_absolute s = true →
      resolve_skill_central_path ex s central
        = join_path central (last_nonempty_segment s))
    ∧ (is_any_platform_absolute s = false →
      resolve_skill_central_path ex s central = central ++ parse_components s)
    ∧ (∀ ex₂ : UPath → Bool,
      resolve_skill_central_path ex₂ ("C:\\Users\\x\\skills\\foo").data
          ["data".data, "skills".data]
        = ["data".data, "skills".data, "foo".data]) := by
  refine ⟨?_, ?_, ?_, ?_⟩
  · intro hu he
    simp [resolve_skill_central_path, hu, he]
  · intro h1 h2
    simp [resolve_skill_central_path, h1, h2]
  · intro h2
    have hu := is_unix_absolute_eq_false_of_any _ h2
    simp [resolve_skill_central_path, hu, h2, join_path]
  · intro ex₂
    have hu : is_unix_absolute ("C:\\Users\\x\\skills\\foo").data = false := by decide
    have h2 : is_any_platform_absolute ("C:\\Users\\x\\skills\\foo").data = true := by decide
    rw [resolve_skill_central_path]
    simp only [hu, Bool.false_and, h2]
    rw [if_neg (by decide), if_pos (by decide)]
    decide

/-- Witness for C5: an existing native absolute path passes through; a
Windows-shaped legacy path is re-anchored; a plain relative path joins
under the central dir; and the spec's concrete scenario. -/
theorem resolve_stored_spec_witness :
    resolve_skill_central_path (fun _ => true) ("/etc/x").data ["data".data] 
      = parse_components ("/etc/x").data
    ∧ resolve_skill_central_path (fun _ => false) ("C:/a/b").data ["data".data]
      = join_path ["data".data] (last_nonempty_segment ("C:/a/b").data)
    ∧ resolve_skill_central_path (fun _ => false) ("foo/bar").data ["data".data]
      = ["data".data] ++ parse_components ("foo/bar").data
    ∧ resolve_skill_central_path (fun _ => false) ("C:\\Users\\x\\skills\\foo").data
        ["data".data, "skills".data]
      = ["data".data, "skills".data, "foo".data] :=
  ⟨(resolve_stored_spec ["data".data] ("/etc/x").data (fun _ => true)).1
      (by decide) (by decide),
   (resolve_stored_spec ["data".data] ("C:/a/b").data (fun _ => false)).2.1
      (by decide) (by decide),
   (resolve_stored_spec ["data".data] ("foo/bar").data (fun _ => false)).2.2.1
      (by decide),
   (resolve_stored_spec ["data".data, "skills".data] ("x").data (fun _ => false)).2.2.2
      (fun _ => false)⟩

/-! ## Lemmas for the applied-flag invariant (claim C1) -/

theorem count_applied_append (a b : ProviderTable) :
    count_applied (a ++ b) = count_applied a + count_applied b := by
  simp [count_applied, List.filter_append]

/-- The two UPDATE sweeps of the flag flip, fused into one pass. -/
def flip_one (id now : String) (r : CodexProviderContent) : CodexProviderContent :=
  if r.provider_id == id then { r with is_applied := true, updated_at := now }
  else { r with is_applied := false, updated_at := now }

theorem flip_applied_eq_map (db : ProviderTable) (id now : String) :
    flip_applied db id now = db.map (flip_one id now) := by
  rw [flip_applied, List.map_map]
  apply List.map_congr_left
  intro r _
  by_cases h : (r.provider_id == id) = true
  · simp [Function.comp, flip_one, h]
  · simp [Function.comp, flip_one, h]

theorem count_applied_cons (r : CodexProviderContent) (db : ProviderTable) :
    count_applied (r :: db) = (if r.is_applied then 1 else 0) + count_applied db := by
  by_cases h : r.is_applied = true <;>
    simp [count_applied, List.filter_cons, h, Nat.add_comm]

theorem count_applied_flip_zero (db : ProviderTable) (id now : String)
    (h : ∀ q ∈ db, (q.provider_id == id) = false) :
    count_applied (db.map (flip_one id now)) = 0 := by
  induction db with
  | nil => rfl
  | cons r rest ih =>
    have h0 := h r (List.mem_cons_self _ _)
    rw [List.map_cons, count_applied_cons]
    have hhead : (flip_one id now r).is_applied = false := by
      simp [flip_one, h0]
    rw [hhead, if_neg Bool.false_ne_true, Nat.zero_add]
    exact ih (fun q hq => h q (List.mem_cons_of_mem _ hq))

theorem count_applied_flip_le_one (db : ProviderTable) (id now : String)
    (hnd : PidsNodup db) : count_applied (flip_applied db id now) ≤ 1 := by
  rw [flip_applied_eq_map]
  induction db with
  | nil => simp [count_applied]
  | cons r rest ih =>
    rw [List.map_cons, count_applied_cons]
    simp only [PidsNodup, List.map_cons, List.nodup_cons] at hnd
    by_cases h0 : (r.provider_id == id) = true
    · have hrest : count_applied (rest.map (flip_one id now)) = 0 := by
        apply count_applied_flip_zero
        intro q hq
        have hne : q.provider_id ≠ r.provider_id := by
          intro heq
          exact hnd.1 (heq ▸ List.mem_map_of_mem (fun x => x.provider_id) hq)
        rw [beq_eq_false_iff_ne]
        intro heq
        exact hne (heq.trans (beq_iff_eq.mp h0).symm)
      rw [hrest]
      by_cases hap : (flip_one id now r).is_applied = true <;> simp [hap]
    · have hhead : (flip_one id now r).is_applied = false := by
        rw [Bool.not_eq_true] at h0
        simp [flip_one, h0]
      rw [hhead, if_neg Bool.false_ne_true, Nat.zero_add]
      exact ih hnd.2

theorem pids_flip (db : ProviderTable) (id now : String) :
    (db.map (flip_one id now)).map (fun r => r.provider_id)
      = db.map (fun r => r.provider_id) := by
  rw [List.map_map]
  apply List.map_congr_left
  intro r _
  by_cases h : (r.provider_id == id) = true <;> simp [Function.comp, flip_one, h]

theorem count_applied_singleton (r : CodexProviderContent) :
    count_applied [r] = if r.is_applied then 1 else 0 := by
  rw [count_applied_cons]
  rfl

theorem count_applied_filter_le (db : ProviderTable) (q : CodexProviderContent → Bool) :
    count_applied (db.filter q) ≤ count_applied db := by
  exact ((List.filter_sublist db).filter _).length_le

theorem create_providers_cases (db : ProviderTable) (input : CodexProviderInput)
    (now : String) :
    (create_codex_provider (honest_check db input.id) db input now).2 = db
    ∨ ((create_codex_provider (honest_check db input.id) db input now).2
        = db ++ [content_of_input input now]
      ∧ ∀ r ∈ db, (r.provider_id == input.id) = false) := by
  unfold honest_check create_codex_provider
  cases hf : db.filter (fun r => r.provider_id == input.id) with
  | nil =>
    right
    have hnone : ∀ r ∈ db, (r.provider_id == input.id) = false := by
      intro r hr
      have := List.filter_eq_nil_iff.mp hf r hr
      simpa using this
    have hany : db.any (fun r => r.provider_id == (content_of_input input now).provider_id)
        = false := by
      rw [List.any_eq_false]
      intro r hr
      simp only [content_of_input]
      simp only [Bool.not_eq_true]
      exact hnone r hr
    refine ⟨?_, hnone⟩
    simp [create_unchecked, store_create, hany]
  | cons r₀ rest₀ =>
    left
    simp

theorem update_providers_cases (db : ProviderTable) (p : CodexProvider) (now : String) :
    (update_codex_provider db p now).2 = db
    ∨ ∃ c, (update_codex_provider db p now).2
        = db.filter (fun r => !(r.provider_id == p.id)) ++ [update_content p c now] := by
  rcases hopt : (if !p.created_at.isEmpty then some p.created_at
      else match findProvider db p.id with
           | some record => some record.created_at
           | none => none) with _ | c
  · left
    unfold update_codex_provider
    rw [hopt]
  · right
    refine ⟨c, ?_⟩
    have hany := any_filter_ne_self db p.id
    unfold update_codex_provider
    rw [hopt]
    simp [store_create, update_content, hany]

theorem apply_internal_providers_cases {α : Type}
    (jparse : String → Except String J)
    (tparse : String → Except String (List (String × α)))
    (tpretty : List (String × α) → String)
    (wres : Option String) (sys : CodexSys) (pid now : String) :
    (apply_config_internal jparse tparse tpretty wres sys pid now).2.providers
        = sys.providers
    ∨ (apply_config_internal jparse tparse tpretty wres sys pid now).2.providers
        = flip_applied sys.providers pid now := by
  cases hres : apply_config_to_file jparse tparse tpretty wres sys pid with
  | error e => left; simp [apply_config_internal, hres]
  | ok w => right; simp [apply_config_internal, hres]

theorem pids_nodup_flip (db : ProviderTable) (id now : String) (hnd : PidsNodup db) :
    PidsNodup (flip_applied db id now) := by
  rw [PidsNodup, flip_applied_eq_map, pids_flip]
  exact hnd

theorem step_op_preserves (sys : CodexSys) (op : COp)
    (hnd : PidsNodup sys.providers) (h1 : AtMostOneApplied sys.providers)
    (hsafe : op_safe sys op) :
    PidsNodup (step_op sys op).providers ∧ AtMostOneApplied (step_op sys op).providers := by
  cases op with
  | createP input now =>
    have hstep : (step_op sys (COp.createP input now)).providers
        = (create_codex_provider (honest_check sys.providers input.id)
            sys.providers input now).2 := rfl
    rcases create_providers_cases sys.providers input now with hc | ⟨hc, hnew⟩
    · rw [hstep, hc]; exact ⟨hnd, h1⟩
    · rw [hstep, hc]
      constructor
      · rw [PidsNodup, List.map_append]
        refine List.nodup_append.mpr ⟨hnd, List.nodup_singleton _, ?_⟩
        intro a ha hb
        obtain ⟨r, hr, hra⟩ := List.mem_map.mp ha
        have hb' : a = (content_of_input input now).provider_id := List.mem_singleton.mp hb
        have := hnew r hr
        rw [beq_eq_false_iff_ne] at this
        exact this (hra.trans (hb'.trans rfl))
      · rw [AtMostOneApplied, count_applied_append, count_applied_singleton]
        have hfalse : (content_of_input input now).is_applied = false := rfl
        rw [hfalse, if_neg Bool.false_ne_true]
        rw [AtMostOneApplied] at h1
        omega
  | selectP id now =>
    have hstep : (step_op sys (COp.selectP id now)).providers
        = flip_applied sys.providers id now := rfl
    rw [hstep]
    exact ⟨pids_nodup_flip _ _ _ hnd, count_applied_flip_le_one _ _ _ hnd⟩
  | applyP jparse tparse tpretty wres id now =>
    have hstep : (step_op sys (COp.applyP jparse tparse tpretty wres id now)).providers
        = (apply_config_internal jparse tparse tpretty wres sys id now).2.providers := rfl
    rcases apply_internal_providers_cases jparse tparse tpretty wres sys id now with hc | hc
    · rw [hstep, hc]; exact ⟨hnd, h1⟩
    · rw [hstep, hc]
      exact ⟨pids_nodup_flip _ _ _ hnd, count_applied_flip_le_one _ _ _ hnd⟩
  | updateP p now =>
    have hstep : (step_op sys (COp.updateP p now)).providers
        = (update_codex_provider sys.providers p now).2 := rfl
    rcases update_providers_cases sys.providers p now with hc | ⟨c, hc⟩
    · rw [hstep, hc]; exact ⟨hnd, h1⟩
    · rw [hstep, hc]
      have hsafe' : p.is_applied = true →
          ∀ r ∈ sys.providers, r.is_applied = true → r.provider_id = p.id := hsafe
      constructor
      · rw [PidsNodup, List.map_append]
        refine List.nodup_append.mpr ⟨?_, List.nodup_singleton _, ?_⟩
        · exact hnd.sublist ((List.filter_sublist _).map _)
        · intro a ha hb
          obtain ⟨r, hr, hra⟩ := List.mem_map.mp ha
          have hkeep := (List.mem_filter.mp hr).2
          simp only [Bool.not_eq_true', beq_eq_false_iff_ne] at hkeep
          have hb' : a = (update_content p c now).provider_id := List.mem_singleton.mp hb
          exact hkeep (hra.trans (hb'.trans rfl))
      · rw [AtMostOneApplied, count_applied_append, count_applied_singleton]
        have hap : (update_content p c now).is_applied = p.is_applied := rfl
        rw [hap]
        by_cases happ : p.is_applied = true
        · have hzero : count_applied
              (sys.providers.filter (fun r => !(r.provider_id == p.id))) = 0 := by
            rw [count_applied, List.length_eq_zero]
            rw [List.filter_eq_nil_iff]
            intro r hr
            have hmem := (List.mem_filter.mp hr).1
            have hkeep := (List.mem_filter.mp hr).2
            simp only [Bool.not_eq_true', beq_eq_false_iff_ne] at hkeep
            intro hra
            exact hkeep (hsafe' happ r hmem (by simpa using hra))
          rw [hzero, happ, if_pos rfl]
        · rw [Bool.not_eq_true] at happ
          rw [happ, if_neg Bool.false_ne_true]
          have hle := count_applied_filter_le sys.providers
            (fun r => !(r.provider_id == p.id))
          rw [AtMostOneApplied] at h1
          omega

/-- A minimal create input for exercising operation sequences. -/
def c1_input (pid : String) : CodexProviderInput :=
  { id := pid, name := pid, category := "", settings_config := "",
    source_provider_id := none, website_url := none, notes := none, icon := none,
    icon_color := none, sort_index := none }

/-- An update input for profile `pid` carrying an explicit applied flag. -/
def c1_update (pid : String) (ap : Bool) : CodexProvider :=
  { id := pid, name := pid, category := "", settings_config := "",
    source_provider_id := none, website_url := none, notes := none, icon := none,
    icon_color := none, sort_index := none, is_applied := ap,
    created_at := "t2", updated_at := "t2" }

def c1_empty_sys : CodexSys :=
  { providers := [], common_config := none, files := none }

/-- Counterexample to C1 as stated: from an empty table, create `a`,
create `b`, select `a`, then update `b` with an input claiming
`applied = true` — a completed sequence of create/select/update calls
after which both `a` and `b` have `applied = true`. -/
theorem applied_invariant_counterexample :
    ¬ AtMostOneApplied (run_ops c1_empty_sys
      [COp.createP (c1_input "a") "t1", COp.createP (c1_input "b") "t2",
       COp.selectP "a" "t3", COp.updateP (c1_update "b" true) "t4"]).providers := by
  decide

/-- Claim C1, amended: Starting from any table satisfying the invariant
(duplicate-free ids, at most one applied), any completed sequence of
create/select/apply/update operations preserves "at most one profile has
applied=true" — provided every update whose input claims `applied = true`
targets the profile that is currently the only applied one.  (The
counterexample shows the proviso is necessary: `update` trusts the
input's applied flag and clears nobody else's.) -/
theorem applied_invariant_spec (sys : CodexSys) (ops : List COp)
    (hnd : PidsNodup sys.providers) (h1 : AtMostOneApplied sys.providers)
    (hsafe : SafeOps sys ops) :
    AtMostOneApplied (run_ops sys ops).providers := by
  induction ops generalizing sys with
  | nil => exact h1
  | cons op rest ih =>
    obtain ⟨hop, hrest⟩ := hsafe
    obtain ⟨hnd₂, h1₂⟩ := step_op_preserves sys op hnd h1 hop
    exact ih (step_op sys op) hnd₂ h1₂ hrest

/-- Witness for the amended C1: create two profiles, select one, apply the
other with a failing disk (a completed no-op), then update it without
claiming applied — at most one profile ends applied. -/
theorem applied_invariant_spec_witness :
    AtMostOneApplied (run_ops c1_empty_sys
      [COp.createP (c1_input "a") "t1", COp.createP (c1_input "b") "t2",
       COp.selectP "a" "t3",
       COp.applyP (fun _ => Except.error "no parse") (fun _ => Except.error "no parse")
         (fun _ => "") (some "disk full") "b" "t4",
       COp.updateP (c1_update "b" false) "t5"]).providers := by
  apply applied_invariant_spec
  · decide
  · decide
  · refine ⟨trivial, trivial, trivial, trivial, ?_, trivial⟩
    intro h
    exact absurd h Bool.false_ne_true
